import Mathlib

/-!
Shallow embedding of the cart service of the qkart backend
(src/services/cart.service.js).  The five service functions
(getCartByUser, addProductToCart, updateProductInCart,
deleteProductFromCart, checkout) are translated as pure functions over an
explicit database state; thrown ApiErrors become `Except.error` values and
the Mongo collection updates become functional updates of the state.
-/

namespace QKart

/-- A product document: keyed by identifier, holds a cost
(src/models, read-only from the cart service's perspective). -/
structure Product where
  id : Nat
  cost : Int
deriving Repr, DecidableEq

/-- A line item of a cart: an embedded product document plus a quantity. -/
structure CartItem where
  product : Product
  quantity : Int
deriving Repr, DecidableEq

/-- A cart document: keyed by user email, ordered list of line items and a
payment option. -/
structure Cart where
  email : String
  cartItems : List CartItem
  paymentOption : String
deriving Repr, DecidableEq

/-- A user document.  `nonDefaultAddress` models the result of the async
`hasSetNonDefaultAddress()` call; the user model itself is outside the
cart service sources. -/
structure User where
  email : String
  walletMoney : Int
  nonDefaultAddress : Bool
deriving Repr, DecidableEq

/-- Modelled from the spec: the user model's address-configuration flag is
external to the cart service; `user.hasSetNonDefaultAddress()` is embedded
as reading this boolean field. -/
def User.hasSetNonDefaultAddress (u : User) : Bool :=
  u.nonDefaultAddress

/-- An ApiError as thrown by the service: an HTTP status code and a fixed
message string. -/
structure ApiError where
  statusCode : Nat
  message : String
deriving Repr, DecidableEq

/-- The persistent state visible to the cart service: the carts collection
and the (read-only) products collection. -/
structure DB where
  carts : List Cart
  products : List Product
deriving Repr, DecidableEq

/-- Modelled from the spec: `config.default_payment_option` lives in a
config module outside the provided sources; its concrete value is not
relevant to any claim. -/
def default_payment_option : String :=
  "PAYMENT_OPTION_DEFAULT"

/-- `Cart.findOne({email: user.email})`: first cart whose email matches. -/
def findCart (carts : List Cart) (email : String) : Option Cart :=
  carts.find? (fun c => c.email == email)

/-- `Product.findOne({_id: productId})`: first product whose id matches. -/
def findProduct (products : List Product) (pid : Nat) : Option Product :=
  products.find? (fun p => p.id == pid)

/-- `cart.save()`: writes the in-memory cart back over the persisted
document with the same email key. -/
def saveCart (carts : List Cart) (cart : Cart) : List Cart :=
  carts.map (fun c => if c.email == cart.email then cart else c)

/-- The linear duplicate-scan loop shared by addProductToCart,
updateProductInCart and deleteProductFromCart:
`for (i...) if (productId == cartItems[i].product._id) productIndex = i`.
`i` is the index of the head of the remaining list, `acc` the current
value of `productIndex`. -/
def scanFrom (pid : Nat) (i : Nat) (acc : Int) : List CartItem → Int
  | [] => acc
  | it :: rest =>
      scanFrom pid (i + 1) (if it.product.id == pid then (i : Int) else acc) rest

/-- The full scan: `productIndex` starts at -1 and ends as the index of the
last matching item, or -1 when no item matches. -/
def scanIndex (pid : Nat) (items : List CartItem) : Int :=
  scanFrom pid 0 (-1) items

/-- `cart.cartItems[idx].quantity = q`: in-place quantity mutation of the
item at index `idx`. -/
def setQty : List CartItem → Nat → Int → List CartItem
  | [], _, _ => []
  | it :: rest, 0, q => { it with quantity := q } :: rest
  | it :: rest, i + 1, q => it :: setQty rest i q

/-- `l.splice(idx, 1)`: removes the single element at index `idx`. -/
def spliceOne {α : Type} : List α → Nat → List α
  | [], _ => []
  | _ :: rest, 0 => rest
  | it :: rest, i + 1 => it :: spliceOne rest i

/-- The checkout total loop: `total += cartItems[i].product.cost * cartItems[i].quantity`. -/
def cartTotal (items : List CartItem) : Int :=
  items.foldl (fun acc it => acc + it.product.cost * it.quantity) 0

/-- The product identifiers of a cart's item list, in order. -/
def pids (items : List CartItem) : List Nat :=
  items.map (fun it => it.product.id)

/-- The HTTP status of a thrown error, `none` on success. -/
def errorStatus {α : Type} : Except ApiError α → Option Nat
  | .error e => some e.statusCode
  | .ok _ => none

/-- getCartByUser: fetch the user's cart; 404 when it does not exist. -/
def getCartByUser (db : DB) (user : User) : Except ApiError Cart :=
  match findCart db.carts user.email with
  | none => .error ⟨404, "User does not have a cart"⟩
  | some cart => .ok cart

/-- addProductToCart: lazily create the cart when missing (persisted at
once by `Cart.create`), scan for a duplicate, look the product up in the
products collection, append, save.  Returns the thrown error or the
returned cart, together with the resulting persistent state. -/
def addProductToCart (db : DB) (user : User) (productId : Nat) (quantity : Int) :
    Except ApiError Cart × DB :=
  match findCart db.carts user.email with
  | some cart =>
      let productIndex := scanIndex productId cart.cartItems
      if productIndex = -1 then
        match findProduct db.products productId with
        | none =>
            (.error ⟨400, "Product doesn't exist in database"⟩, db)
        | some product =>
            let cart2 := { cart with cartItems := cart.cartItems ++ [⟨product, quantity⟩] }
            (.ok cart2, { db with carts := saveCart db.carts cart2 })
      else
        (.error ⟨400,
          "Product already in cart. use the cart sidebar to update or remove product from cart"⟩,
          db)
  | none =>
      let cart : Cart := { email := user.email, cartItems := [], paymentOption := default_payment_option }
      let db1 : DB := { db with carts := db.carts ++ [cart] }
      match findProduct db1.products productId with
      | none =>
          (.error ⟨400, "Product doesn't exist in database"⟩, db1)
      | some product =>
          let cart2 := { cart with cartItems := cart.cartItems ++ [⟨product, quantity⟩] }
          (.ok cart2, { db1 with carts := saveCart db1.carts cart2 })

/-- updateProductInCart: look up cart (400 when missing) and product
(400 when missing), scan for the item (400 when absent), mutate its
quantity in place, save. -/
def updateProductInCart (db : DB) (user : User) (productId : Nat) (quantity : Int) :
    Except ApiError Cart × DB :=
  match findCart db.carts user.email with
  | none =>
      (.error ⟨400, "User does not have a cart. Use POST to create cart and add a product"⟩, db)
  | some cart =>
      match findProduct db.products productId with
      | none => (.error ⟨400, "Product doesn't exist in database"⟩, db)
      | some _ =>
          let productIndex := scanIndex productId cart.cartItems
          if productIndex = -1 then
            (.error ⟨400, "Product not in cart"⟩, db)
          else
            let cart2 := { cart with cartItems := setQty cart.cartItems productIndex.toNat quantity }
            (.ok cart2, { db with carts := saveCart db.carts cart2 })

/-- deleteProductFromCart: look up cart (400 when missing), scan for the
item (400 when absent), splice it out, save. -/
def deleteProductFromCart (db : DB) (user : User) (productId : Nat) :
    Except ApiError Cart × DB :=
  match findCart db.carts user.email with
  | none =>
      (.error ⟨400, "User does not have a cart"⟩, db)
  | some cart =>
      let productIndex := scanIndex productId cart.cartItems
      if productIndex = -1 then
        (.error ⟨400, "Product not in cart"⟩, db)
      else
        let cart2 := { cart with cartItems := spliceOne cart.cartItems productIndex.toNat }
        (.ok cart2, { db with carts := saveCart db.carts cart2 })

/-- checkout: look up cart (404 when missing), reject an empty item list
(400), reject an unset address (400), sum cost times quantity, reject a
total above the wallet balance (400), debit the wallet, clear the items,
save user and cart. -/
def checkout (db : DB) (user : User) : Except ApiError Unit × DB × User :=
  match findCart db.carts user.email with
  | none => (.error ⟨404, "User does not have a cart"⟩, db, user)
  | some cart =>
      if cart.cartItems.length = 0 then
        (.error ⟨400, "Cart is empty"⟩, db, user)
      else if !user.hasSetNonDefaultAddress then
        (.error ⟨400, "Address not set"⟩, db, user)
      else
        let total := cartTotal cart.cartItems
        if total > user.walletMoney then
          (.error ⟨400, "User has insufficient money to process"⟩, db, user)
        else
          let user2 := { user with walletMoney := user.walletMoney - total }
          let cart2 := { cart with cartItems := ([] : List CartItem) }
          (.ok (), { db with carts := saveCart db.carts cart2 }, user2)

/-- Well-formedness of the store: every product embedded in a cart line
item is still present in the products collection.  addProductToCart only
appends products found in the collection and the collection is read-only
from the cart service's perspective, so every reachable state satisfies
this. -/
def WellFormed (db : DB) : Prop :=
  ∀ c ∈ db.carts, ∀ it ∈ c.cartItems, (findProduct db.products it.product.id).isSome

instance decWellFormed (db : DB) : Decidable (WellFormed db) := by
  unfold WellFormed
  infer_instance

/-- The empty cart document created lazily by addProductToCart for a user
without one. -/
def newCart (e : String) : Cart :=
  { email := e, cartItems := [], paymentOption := default_payment_option }

/-- Sample product used by the concrete instantiations below. -/
def sampleProduct : Product := ⟨1, 5⟩

/-- Sample line item: product 1 with quantity 2. -/
def sampleItem : CartItem := ⟨sampleProduct, 2⟩

/-- Sample cart holding exactly the sample item. -/
def sampleCart : Cart := ⟨"u@qkart.io", [sampleItem], "PAYMENT_OPTION_DEFAULT"⟩

/-- Sample store: the sample cart plus a products collection holding
products 1 and 2. -/
def sampleDB : DB := ⟨[sampleCart], [sampleProduct, ⟨2, 3⟩]⟩

/-- Sample user owning the sample cart, wallet balance 10, address set. -/
def sampleUser : User := ⟨"u@qkart.io", 10, true⟩

/-- A persisted cart with an empty item list. -/
def emptyCart : Cart := ⟨"e@qkart.io", [], "PAYMENT_OPTION_DEFAULT"⟩

/-- A store whose only cart is the empty one. -/
def emptyCartDB : DB := ⟨[emptyCart], [sampleProduct]⟩

/-- The owner of the empty cart. -/
def emptyCartUser : User := ⟨"e@qkart.io", 5, true⟩

/-- A user who does not have a cart yet. -/
def freshUser : User := ⟨"new@qkart.io", 3, true⟩

/-- A store with no carts at all. -/
def noCartDB : DB := ⟨[], [sampleProduct]⟩

/-! Helper lemmas about the embedded primitives. -/

theorem findCart_cons (c : Cart) (rest : List Cart) (e : String) :
    findCart (c :: rest) e = if c.email = e then some c else findCart rest e := by
  by_cases h : c.email = e
  · rw [if_pos h]
    exact List.find?_cons_of_pos rest (beq_iff_eq.mpr h)
  · rw [if_neg h]
    exact List.find?_cons_of_neg rest (by simpa using h)

theorem findCart_email (carts : List Cart) (e : String) (c : Cart)
    (h : findCart carts e = some c) : c.email = e := by
  have h' : List.find? (fun x => x.email == e) carts = some c := h
  simpa using List.find?_some h'

theorem findCart_mem (carts : List Cart) (e : String) (c : Cart)
    (h : findCart carts e = some c) : c ∈ carts :=
  List.mem_of_find?_eq_some h

theorem findProduct_id (products : List Product) (pid : Nat) (p : Product)
    (h : findProduct products pid = some p) : p.id = pid := by
  have h' : List.find? (fun x => x.id == pid) products = some p := h
  simpa using List.find?_some h'

theorem findCart_append_of_none (a b : List Cart) (e : String)
    (h : findCart a e = none) : findCart (a ++ b) e = findCart b e := by
  unfold findCart at *
  rw [List.find?_append, h, Option.none_or]

theorem findCart_saveCart (carts : List Cart) (c2 : Cart) (e : String) :
    findCart (saveCart carts c2) e
      = (findCart carts e).map (fun c => if c.email = c2.email then c2 else c) := by
  induction carts with
  | nil => rfl
  | cons c rest ih =>
      have hsave : saveCart (c :: rest) c2
          = (if c.email == c2.email then c2 else c) :: saveCart rest c2 := rfl
      rw [hsave]
      by_cases h2 : c.email = c2.email
      · rw [if_pos (beq_iff_eq.mpr h2), findCart_cons, findCart_cons]
        by_cases he : c.email = e
        · rw [if_pos (h2 ▸ he), if_pos he, Option.map_some', if_pos h2]
        · rw [if_neg (fun hc => he (h2.trans hc)), if_neg he, ih]
      · rw [if_neg (by simpa using h2), findCart_cons, findCart_cons]
        by_cases he : c.email = e
        · rw [if_pos he, if_pos he, Option.map_some', if_neg h2]
        · rw [if_neg he, if_neg he, ih]

theorem scanFrom_no_match (pid : Nat) (l : List CartItem)
    (h : ∀ x ∈ l, x.product.id ≠ pid) :
    ∀ (i : Nat) (acc : Int), scanFrom pid i acc l = acc := by
  induction l with
  | nil => intro i acc; rfl
  | cons it rest ih =>
      intro i acc
      have h1 : (it.product.id == pid) = false :=
        beq_eq_false_iff_ne.mpr (h it (List.mem_cons_self it rest))
      show scanFrom pid (i + 1) (if it.product.id == pid then (i : Int) else acc) rest = acc
      rw [h1]
      exact ih (fun x hx => h x (List.mem_cons_of_mem it hx)) (i + 1) acc

theorem scanFrom_ge (pid : Nat) (l : List CartItem) :
    ∀ (i : Nat) (acc : Int), (∃ x ∈ l, x.product.id = pid) →
      (i : Int) ≤ scanFrom pid i acc l := by
  induction l with
  | nil =>
      intro i acc h
      rcases h with ⟨x, hx, _⟩
      exact absurd hx (List.not_mem_nil x)
  | cons it rest ih =>
      intro i acc h
      show (i : Int) ≤ scanFrom pid (i + 1) (if it.product.id == pid then (i : Int) else acc) rest
      by_cases hrest : ∃ x ∈ rest, x.product.id = pid
      · have h1 := ih (i + 1) (if it.product.id == pid then (i : Int) else acc) hrest
        have h2 : (i : Int) ≤ ((i + 1 : Nat) : Int) := by exact_mod_cast Nat.le_succ i
        exact le_trans h2 h1
      · rcases h with ⟨x, hx, hxp⟩
        rcases List.mem_cons.mp hx with rfl | hxr
        · rw [beq_iff_eq.mpr hxp, if_pos rfl,
            scanFrom_no_match pid rest (fun y hy hyp => hrest ⟨y, hy, hyp⟩)]
        · exact absurd ⟨x, hxr, hxp⟩ hrest

theorem scanIndex_eq_neg_one (pid : Nat) (l : List CartItem)
    (h : scanIndex pid l = -1) : ∀ x ∈ l, x.product.id ≠ pid := by
  intro x hx hxp
  have h1 := scanFrom_ge pid l 0 (-1) ⟨x, hx, hxp⟩
  rw [scanIndex] at h
  omega

theorem scanIndex_ne_neg_one (pid : Nat) (l : List CartItem)
    (h : ∃ x ∈ l, x.product.id = pid) : ¬ scanIndex pid l = -1 := by
  intro hc
  rcases h with ⟨x, hx, hxp⟩
  exact scanIndex_eq_neg_one pid l hc x hx hxp

theorem scanFrom_append (pid : Nat) (a b : List CartItem) :
    ∀ (i : Nat) (acc : Int),
      scanFrom pid i acc (a ++ b) = scanFrom pid (i + a.length) (scanFrom pid i acc a) b := by
  induction a with
  | nil => intro i acc; rfl
  | cons it rest ih =>
      intro i acc
      show scanFrom pid (i + 1) _ (rest ++ b) = _
      rw [ih]
      have hlen : i + 1 + rest.length = i + (it :: rest).length := by
        simp [List.length_cons]; omega
      rw [hlen]
      rfl

theorem scanIndex_unique (pid : Nat) (l1 l2 : List CartItem) (it : CartItem)
    (h1 : ∀ x ∈ l1, x.product.id ≠ pid) (hit : it.product.id = pid)
    (h2 : ∀ x ∈ l2, x.product.id ≠ pid) :
    scanIndex pid (l1 ++ it :: l2) = (l1.length : Int) := by
  unfold scanIndex
  rw [scanFrom_append, scanFrom_no_match pid l1 h1]
  show scanFrom pid (0 + l1.length + 1)
      (if it.product.id == pid then ((0 + l1.length : Nat) : Int) else -1) l2 = _
  rw [beq_iff_eq.mpr hit, if_pos rfl, scanFrom_no_match pid l2 h2]
  simp

theorem setQty_append (l1 l2 : List CartItem) (it : CartItem) (q : Int) :
    setQty (l1 ++ it :: l2) l1.length q = l1 ++ { it with quantity := q } :: l2 := by
  induction l1 with
  | nil => rfl
  | cons a rest ih =>
      show a :: setQty (rest ++ it :: l2) rest.length q = _
      rw [ih]
      rfl

theorem spliceOne_append {α : Type} (l1 l2 : List α) (it : α) :
    spliceOne (l1 ++ it :: l2) l1.length = l1 ++ l2 := by
  induction l1 with
  | nil => rfl
  | cons a rest ih =>
      show a :: spliceOne (rest ++ it :: l2) rest.length = _
      rw [ih]
      rfl

theorem pids_setQty (l : List CartItem) :
    ∀ (i : Nat) (q : Int), pids (setQty l i q) = pids l := by
  induction l with
  | nil => intro i q; rfl
  | cons a rest ih =>
      intro i q
      cases i with
      | zero => rfl
      | succ j =>
          show a.product.id :: pids (setQty rest j q) = a.product.id :: pids rest
          rw [ih]

theorem spliceOne_sublist {α : Type} (l : List α) :
    ∀ i : Nat, (spliceOne l i).Sublist l := by
  induction l with
  | nil => intro i; exact List.Sublist.refl []
  | cons a rest ih =>
      intro i
      cases i with
      | zero => exact List.sublist_cons_self a rest
      | succ j => exact List.Sublist.cons₂ a (ih j)

theorem pids_append (a b : List CartItem) : pids (a ++ b) = pids a ++ pids b := by
  unfold pids
  exact List.map_append _ a b

theorem findCart_saveCart_of_found (carts : List Cart) (e : String) (cart c2 : Cart)
    (h : findCart carts e = some cart) (h2 : c2.email = cart.email) :
    findCart (saveCart carts c2) e = some c2 := by
  rw [findCart_saveCart, h, Option.map_some', if_pos h2.symm]

theorem checkout_ok_characterization (db : DB) (user : User) (cart : Cart)
    (hc : findCart db.carts user.email = some cart)
    (hne : cart.cartItems ≠ [])
    (haddr : user.hasSetNonDefaultAddress = true)
    (hbal : cartTotal cart.cartItems ≤ user.walletMoney) :
    checkout db user
      = (Except.ok (),
         { db with carts := saveCart db.carts { cart with cartItems := ([] : List CartItem) } },
         { user with walletMoney := user.walletMoney - cartTotal cart.cartItems }) := by
  have hlen : ¬ cart.cartItems.length = 0 := fun h => hne (List.length_eq_zero.mp h)
  have hbal' : ¬ cartTotal cart.cartItems > user.walletMoney := not_lt.mpr hbal
  unfold checkout
  rw [hc]
  simp only [haddr, Bool.not_true, Bool.false_eq_true, if_false, if_neg hlen, if_neg hbal']

theorem nodup_pids_spliceOne (l : List CartItem) (i : Nat) (h : (pids l).Nodup) :
    (pids (spliceOne l i)).Nodup :=
  List.Nodup.sublist (List.Sublist.map _ (spliceOne_sublist l i)) h

theorem add_preserves_nodup (db : DB) (user : User) (pid : Nat) (q : Int)
    (hpre : ∀ c, findCart db.carts user.email = some c → (pids c.cartItems).Nodup) :
    ∀ c, findCart (addProductToCart db user pid q).2.carts user.email = some c →
      (pids c.cartItems).Nodup := by
  intro c hc
  unfold addProductToCart at hc
  cases hfind : findCart db.carts user.email with
  | some cart =>
      simp only [hfind] at hc
      by_cases hidx : scanIndex pid cart.cartItems = -1
      · cases hprod : findProduct db.products pid with
        | none =>
            simp only [hprod, if_pos hidx] at hc
            exact hpre c hc
        | some p =>
            simp only [hprod, if_pos hidx] at hc
            rw [findCart_saveCart_of_found db.carts user.email cart
              (Cart.mk cart.email (cart.cartItems ++ [CartItem.mk p q]) cart.paymentOption)
              hfind rfl] at hc
            injection hc with hc
            subst hc
            show (pids (cart.cartItems ++ [⟨p, q⟩])).Nodup
            rw [pids_append, List.nodup_append]
            refine ⟨hpre cart hfind, List.nodup_singleton _, ?_⟩
            intro a ha hb
            simp only [pids, List.map_cons, List.map_nil, List.mem_singleton] at hb
            simp only [pids, List.mem_map] at ha
            obtain ⟨x, hx, hxid⟩ := ha
            have hpid : p.id = pid := findProduct_id db.products pid p hprod
            exact scanIndex_eq_neg_one pid cart.cartItems hidx x hx
              (hxid.trans (hb.trans hpid))
      · simp only [if_neg hidx] at hc
        exact hpre c hc
  | none =>
      simp only [hfind] at hc
      have hf2 : findCart (db.carts ++ [Cart.mk user.email [] default_payment_option])
          user.email = some (Cart.mk user.email [] default_payment_option) := by
        rw [findCart_append_of_none db.carts _ user.email hfind, findCart_cons]
        simp
      cases hprod : findProduct db.products pid with
      | none =>
          simp only [hprod] at hc
          rw [hf2] at hc
          injection hc with hc
          subst hc
          exact List.nodup_nil
      | some p =>
          simp only [hprod] at hc
          rw [findCart_saveCart_of_found
            (db.carts ++ [Cart.mk user.email [] default_payment_option]) user.email
            (Cart.mk user.email [] default_payment_option)
            (Cart.mk user.email ([] ++ [CartItem.mk p q]) default_payment_option)
            hf2 rfl] at hc
          injection hc with hc
          subst hc
          exact List.nodup_singleton _

theorem update_preserves_nodup (db : DB) (user : User) (pid : Nat) (q : Int)
    (hpre : ∀ c, findCart db.carts user.email = some c → (pids c.cartItems).Nodup) :
    ∀ c, findCart (updateProductInCart db user pid q).2.carts user.email = some c →
      (pids c.cartItems).Nodup := by
  intro c hc
  unfold updateProductInCart at hc
  cases hfind : findCart db.carts user.email with
  | none =>
      simp only [hfind] at hc
      exact Option.noConfusion hc
  | some cart =>
      simp only [hfind] at hc
      cases hprod : findProduct db.products pid with
      | none =>
          simp only [hprod] at hc
          exact hpre c hc
      | some p =>
          simp only [hprod] at hc
          by_cases hidx : scanIndex pid cart.cartItems = -1
          · simp only [if_pos hidx] at hc
            exact hpre c hc
          · simp only [if_neg hidx] at hc
            rw [findCart_saveCart_of_found db.carts user.email cart
              (Cart.mk cart.email
                (setQty cart.cartItems (scanIndex pid cart.cartItems).toNat q)
                cart.paymentOption)
              hfind rfl] at hc
            injection hc with hc
            subst hc
            show (pids (setQty cart.cartItems (scanIndex pid cart.cartItems).toNat q)).Nodup
            rw [pids_setQty]
            exact hpre cart hfind

theorem delete_preserves_nodup (db : DB) (user : User) (pid : Nat)
    (hpre : ∀ c, findCart db.carts user.email = some c → (pids c.cartItems).Nodup) :
    ∀ c, findCart (deleteProductFromCart db user pid).2.carts user.email = some c →
      (pids c.cartItems).Nodup := by
  intro c hc
  unfold deleteProductFromCart at hc
  cases hfind : findCart db.carts user.email with
  | none =>
      simp only [hfind] at hc
      exact Option.noConfusion hc
  | some cart =>
      simp only [hfind] at hc
      by_cases hidx : scanIndex pid cart.cartItems = -1
      · simp only [if_pos hidx] at hc
        exact hpre c hc
      · simp only [if_neg hidx] at hc
        rw [findCart_saveCart_of_found db.carts user.email cart
          (Cart.mk cart.email
            (spliceOne cart.cartItems (scanIndex pid cart.cartItems).toNat)
            cart.paymentOption)
          hfind rfl] at hc
        injection hc with hc
        subst hc
        show (pids (spliceOne cart.cartItems (scanIndex pid cart.cartItems).toNat)).Nodup
        exact nodup_pids_spliceOne cart.cartItems _ (hpre cart hfind)

theorem checkout_preserves_nodup (db : DB) (user : User)
    (hpre : ∀ c, findCart db.carts user.email = some c → (pids c.cartItems).Nodup) :
    ∀ c, findCart (checkout db user).2.1.carts user.email = some c →
      (pids c.cartItems).Nodup := by
  intro c hc
  unfold checkout at hc
  cases hfind : findCart db.carts user.email with
  | none =>
      simp only [hfind] at hc
      exact Option.noConfusion hc
  | some cart =>
      simp only [hfind] at hc
      by_cases hlen : cart.cartItems.length = 0
      · simp only [if_pos hlen] at hc
        exact hpre c hc
      · simp only [if_neg hlen] at hc
        cases haddr : user.hasSetNonDefaultAddress with
        | false =>
            simp only [haddr, Bool.not_false, eq_self_iff_true, if_true] at hc
            exact hpre c hc
        | true =>
            simp only [haddr, Bool.not_true, Bool.false_eq_true, if_false] at hc
            by_cases hbal : cartTotal cart.cartItems > user.walletMoney
            · simp only [if_pos hbal] at hc
              exact hpre c hc
            · simp only [if_neg hbal] at hc
              rw [findCart_saveCart_of_found db.carts user.email cart
                (Cart.mk cart.email [] cart.paymentOption) hfind rfl] at hc
              injection hc with hc
              subst hc
              exact List.nodup_nil


/-! Claim theorems. -/

/-- C1: when the user's cart exists and is non-empty, the address check
passes and the wallet balance is at least the sum of cost times quantity
over the cart items, checkout succeeds, debits walletMoney by exactly that
sum, and the cart document is still present with an empty item list. -/
theorem checkout_success (db : DB) (user : User) (cart : Cart)
    (hc : findCart db.carts user.email = some cart)
    (hne : cart.cartItems ≠ [])
    (haddr : user.hasSetNonDefaultAddress = true)
    (hbal : cartTotal cart.cartItems ≤ user.walletMoney) :
    (checkout db user).1 = Except.ok () ∧
    (checkout db user).2.2.walletMoney = user.walletMoney - cartTotal cart.cartItems ∧
    findCart (checkout db user).2.1.carts user.email
      = some { cart with cartItems := ([] : List CartItem) } := by
  rw [checkout_ok_characterization db user cart hc hne haddr hbal]
  exact ⟨rfl, rfl, findCart_saveCart_of_found db.carts user.email cart _ hc rfl⟩

/-- Concrete instantiation of checkout_success on the sample store. -/
theorem checkout_success_witness :
    findCart sampleDB.carts sampleUser.email = some sampleCart ∧
    sampleCart.cartItems ≠ [] ∧
    sampleUser.hasSetNonDefaultAddress = true ∧
    cartTotal sampleCart.cartItems ≤ sampleUser.walletMoney ∧
    ((checkout sampleDB sampleUser).1 = Except.ok () ∧
     (checkout sampleDB sampleUser).2.2.walletMoney
       = sampleUser.walletMoney - cartTotal sampleCart.cartItems ∧
     findCart (checkout sampleDB sampleUser).2.1.carts sampleUser.email
       = some { sampleCart with cartItems := ([] : List CartItem) }) :=
  ⟨by decide, by decide, by decide, by decide,
    checkout_success sampleDB sampleUser sampleCart
      (by decide) (by decide) (by decide) (by decide)⟩

/-- C2 (amended): when the user has no cart, getCartByUser and checkout
throw an error with status 404, while updateProductInCart and
deleteProductFromCart throw an error with status 400. -/
theorem cartMissing_statuses (db : DB) (user : User) (pid : Nat) (q : Int)
    (h : findCart db.carts user.email = none) :
    errorStatus (getCartByUser db user) = some 404 ∧
    errorStatus (checkout db user).1 = some 404 ∧
    errorStatus (updateProductInCart db user pid q).1 = some 400 ∧
    errorStatus (deleteProductFromCart db user pid).1 = some 400 := by
  unfold getCartByUser checkout updateProductInCart deleteProductFromCart
  rw [h]
  exact ⟨rfl, rfl, rfl, rfl⟩

/-- Concrete instantiation of cartMissing_statuses on the empty store. -/
theorem cartMissing_statuses_witness :
    findCart (DB.mk [] []).carts (User.mk "nobody2" 1 true).email = none ∧
    (errorStatus (getCartByUser (DB.mk [] []) (User.mk "nobody2" 1 true)) = some 404 ∧
     errorStatus (checkout (DB.mk [] []) (User.mk "nobody2" 1 true)).1 = some 404 ∧
     errorStatus (updateProductInCart (DB.mk [] []) (User.mk "nobody2" 1 true) 1 1).1 = some 400 ∧
     errorStatus (deleteProductFromCart (DB.mk [] []) (User.mk "nobody2" 1 true) 1).1 = some 400) :=
  ⟨by decide, cartMissing_statuses (DB.mk [] []) (User.mk "nobody2" 1 true) 1 1 (by decide)⟩

/-- C2 counterexample: for a user with no cart, updateProductInCart throws
an error with status 400, not 404, refuting that every cart operation
yields 404 when the cart is missing. -/
theorem cartMissing_counterexample :
    findCart (DB.mk [] []).carts (User.mk "nobody" 0 false).email = none ∧
    errorStatus (updateProductInCart (DB.mk [] []) (User.mk "nobody" 0 false) 1 1).1 = some 400 ∧
    errorStatus (updateProductInCart (DB.mk [] []) (User.mk "nobody" 0 false) 1 1).1 ≠ some 404 :=
  ⟨rfl, rfl, by decide⟩

/-- C3: adding a product that is already in the user's cart throws an
error with status 400 and leaves the whole store, in particular the
cart's item list, unchanged. -/
theorem addProduct_duplicate (db : DB) (user : User) (cart : Cart) (pid : Nat) (q : Int)
    (it : CartItem)
    (hc : findCart db.carts user.email = some cart)
    (hmem : it ∈ cart.cartItems) (hid : it.product.id = pid) :
    errorStatus (addProductToCart db user pid q).1 = some 400 ∧
    (addProductToCart db user pid q).2 = db := by
  have hne := scanIndex_ne_neg_one pid cart.cartItems ⟨it, hmem, hid⟩
  unfold addProductToCart
  simp only [hc, if_neg hne]
  exact ⟨rfl, trivial⟩

/-- Concrete instantiation of addProduct_duplicate on the sample store. -/
theorem addProduct_duplicate_witness :
    findCart sampleDB.carts sampleUser.email = some sampleCart ∧
    sampleItem ∈ sampleCart.cartItems ∧
    sampleItem.product.id = 1 ∧
    (errorStatus (addProductToCart sampleDB sampleUser 1 7).1 = some 400 ∧
     (addProductToCart sampleDB sampleUser 1 7).2 = sampleDB) :=
  ⟨by decide, by decide, by decide,
    addProduct_duplicate sampleDB sampleUser sampleCart 1 7 sampleItem
      (by decide) (by decide) (by decide)⟩

/-- C5: when the wallet balance is non-negative before checkout and
checkout succeeds, the wallet balance is non-negative afterwards, because
the balance pre-check rejects any total above the balance. -/
theorem checkout_wallet_nonneg (db : DB) (user : User)
    (h0 : 0 ≤ user.walletMoney)
    (hok : (checkout db user).1 = Except.ok ()) :
    0 ≤ (checkout db user).2.2.walletMoney := by
  cases hfind : findCart db.carts user.email with
  | none => simp [checkout, hfind] at hok
  | some cart =>
      by_cases hlen : cart.cartItems.length = 0
      · simp [checkout, hfind, hlen] at hok
      · cases haddr : user.hasSetNonDefaultAddress with
        | false => simp [checkout, hfind, hlen, haddr] at hok
        | true =>
            by_cases hbal : cartTotal cart.cartItems > user.walletMoney
            · simp [checkout, hfind, hlen, haddr, hbal] at hok
            · simp [checkout, hfind, hlen, haddr, hbal]
              exact not_lt.mp hbal

/-- Concrete instantiation of checkout_wallet_nonneg on the sample store. -/
theorem checkout_wallet_nonneg_witness :
    0 ≤ sampleUser.walletMoney ∧
    (checkout sampleDB sampleUser).1 = Except.ok () ∧
    0 ≤ (checkout sampleDB sampleUser).2.2.walletMoney :=
  ⟨by decide, rfl, checkout_wallet_nonneg sampleDB sampleUser (by decide) rfl⟩

/-- C6: checkout of a cart that exists but has an empty item list throws
the 400 "Cart is empty" error. -/
theorem checkout_empty_cart (db : DB) (user : User) (cart : Cart)
    (hc : findCart db.carts user.email = some cart)
    (he : cart.cartItems = []) :
    (checkout db user).1 = Except.error ⟨400, "Cart is empty"⟩ := by
  simp [checkout, hc, he]

/-- Concrete instantiation of checkout_empty_cart on the empty-cart store. -/
theorem checkout_empty_cart_witness :
    findCart emptyCartDB.carts emptyCartUser.email = some emptyCart ∧
    emptyCart.cartItems = [] ∧
    (checkout emptyCartDB emptyCartUser).1 = Except.error ⟨400, "Cart is empty"⟩ :=
  ⟨by decide, by decide,
    checkout_empty_cart emptyCartDB emptyCartUser emptyCart (by decide) (by decide)⟩

/-- C10: when the cart total is exactly the wallet balance (and checkout's
earlier preconditions hold), the strict greater-than comparison lets
checkout succeed and the wallet balance ends at exactly zero. -/
theorem checkout_exact_balance (db : DB) (user : User) (cart : Cart)
    (hc : findCart db.carts user.email = some cart)
    (hne : cart.cartItems ≠ [])
    (haddr : user.hasSetNonDefaultAddress = true)
    (heq : cartTotal cart.cartItems = user.walletMoney) :
    (checkout db user).1 = Except.ok () ∧
    (checkout db user).2.2.walletMoney = 0 := by
  rw [checkout_ok_characterization db user cart hc hne haddr (le_of_eq heq)]
  exact ⟨rfl, by simp [heq]⟩

/-- Concrete instantiation of checkout_exact_balance on the sample store,
whose cart total 10 equals the wallet balance 10. -/
theorem checkout_exact_balance_witness :
    findCart sampleDB.carts sampleUser.email = some sampleCart ∧
    sampleCart.cartItems ≠ [] ∧
    sampleUser.hasSetNonDefaultAddress = true ∧
    cartTotal sampleCart.cartItems = sampleUser.walletMoney ∧
    ((checkout sampleDB sampleUser).1 = Except.ok () ∧
     (checkout sampleDB sampleUser).2.2.walletMoney = 0) :=
  ⟨by decide, by decide, by decide, by decide,
    checkout_exact_balance sampleDB sampleUser sampleCart
      (by decide) (by decide) (by decide) (by decide)⟩

/-- C7: in a well-formed store, updating the quantity of a product present
in the user's cart mutates exactly that item's quantity to the new value:
the other items, their order, and the cart's email and payment-option
fields are unchanged. -/
theorem updateProduct_frame (db : DB) (user : User) (cart : Cart) (pid : Nat) (q : Int)
    (l1 l2 : List CartItem) (it : CartItem)
    (hwf : WellFormed db)
    (hc : findCart db.carts user.email = some cart)
    (hsplit : cart.cartItems = l1 ++ it :: l2)
    (hid : it.product.id = pid)
    (hl1 : ∀ x ∈ l1, x.product.id ≠ pid)
    (hl2 : ∀ x ∈ l2, x.product.id ≠ pid) :
    updateProductInCart db user pid q
      = (Except.ok { cart with cartItems := l1 ++ { it with quantity := q } :: l2 },
         { db with carts := saveCart db.carts (
             { cart with cartItems := l1 ++ { it with quantity := q } :: l2 }) }) := by
  have hmem : it ∈ cart.cartItems := by
    rw [hsplit]
    exact List.mem_append_right l1 (List.mem_cons_self it l2)
  have hps : (findProduct db.products pid).isSome := by
    have h1 := hwf cart (findCart_mem db.carts user.email cart hc) it hmem
    rwa [hid] at h1
  obtain ⟨p, hp⟩ := Option.isSome_iff_exists.mp hps
  have hscan : scanIndex pid cart.cartItems = (l1.length : Int) := by
    rw [hsplit]
    exact scanIndex_unique pid l1 l2 it hl1 hid hl2
  have hne : ¬ scanIndex pid cart.cartItems = -1 := by rw [hscan]; omega
  have htn : (scanIndex pid cart.cartItems).toNat = l1.length := by
    rw [hscan]
    exact Int.toNat_natCast l1.length
  unfold updateProductInCart
  simp only [hc, hp, if_neg hne, htn]
  rw [hsplit, setQty_append]

/-- Concrete instantiation of updateProduct_frame on the sample store. -/
theorem updateProduct_frame_witness :
    WellFormed sampleDB ∧
    findCart sampleDB.carts sampleUser.email = some sampleCart ∧
    sampleCart.cartItems = [] ++ sampleItem :: [] ∧
    sampleItem.product.id = 1 ∧
    updateProductInCart sampleDB sampleUser 1 9
      = (Except.ok { sampleCart with cartItems := [] ++ { sampleItem with quantity := 9 } :: [] },
         { sampleDB with carts := saveCart sampleDB.carts (
             { sampleCart with cartItems := [] ++ { sampleItem with quantity := 9 } :: [] }) }) :=
  ⟨by decide, by decide, by decide, by decide,
    updateProduct_frame sampleDB sampleUser sampleCart 1 9 [] [] sampleItem
      (by decide) (by decide) (by decide) (by decide) (by decide) (by decide)⟩

/-- C8: deleting a product that occurs exactly once in the user's cart
removes exactly that item, preserving the relative order of the remaining
items; deleting a product that is not in the cart throws status 400 and
leaves the store unchanged. -/
theorem deleteProduct_spec (db : DB) (user : User) (cart : Cart) (pid : Nat)
    (hc : findCart db.carts user.email = some cart) :
    (∀ (l1 l2 : List CartItem) (it : CartItem),
        cart.cartItems = l1 ++ it :: l2 → it.product.id = pid →
        (∀ x ∈ l1, x.product.id ≠ pid) → (∀ x ∈ l2, x.product.id ≠ pid) →
        deleteProductFromCart db user pid
          = (Except.ok { cart with cartItems := l1 ++ l2 },
             { db with carts := saveCart db.carts { cart with cartItems := l1 ++ l2 } })) ∧
    ((∀ x ∈ cart.cartItems, x.product.id ≠ pid) →
        errorStatus (deleteProductFromCart db user pid).1 = some 400 ∧
        (deleteProductFromCart db user pid).2 = db) := by
  constructor
  · intro l1 l2 it hsplit hid hl1 hl2
    have hscan : scanIndex pid cart.cartItems = (l1.length : Int) := by
      rw [hsplit]
      exact scanIndex_unique pid l1 l2 it hl1 hid hl2
    have hne : ¬ scanIndex pid cart.cartItems = -1 := by rw [hscan]; omega
    have htn : (scanIndex pid cart.cartItems).toNat = l1.length := by
      rw [hscan]
      exact Int.toNat_natCast l1.length
    unfold deleteProductFromCart
    simp only [hc, if_neg hne, htn]
    rw [hsplit, spliceOne_append]
  · intro hnone
    have hz : scanIndex pid cart.cartItems = -1 :=
      scanFrom_no_match pid cart.cartItems hnone 0 (-1)
    unfold deleteProductFromCart
    simp only [hc, if_pos hz]
    exact ⟨rfl, trivial⟩

/-- Concrete instantiation of deleteProduct_spec on the sample store. -/
theorem deleteProduct_spec_witness :
    findCart sampleDB.carts sampleUser.email = some sampleCart ∧
    ((∀ (l1 l2 : List CartItem) (it : CartItem),
        sampleCart.cartItems = l1 ++ it :: l2 → it.product.id = 1 →
        (∀ x ∈ l1, x.product.id ≠ 1) → (∀ x ∈ l2, x.product.id ≠ 1) →
        deleteProductFromCart sampleDB sampleUser 1
          = (Except.ok { sampleCart with cartItems := l1 ++ l2 },
             { sampleDB with carts := saveCart sampleDB.carts { sampleCart with cartItems := l1 ++ l2 } })) ∧
     ((∀ x ∈ sampleCart.cartItems, x.product.id ≠ 1) →
        errorStatus (deleteProductFromCart sampleDB sampleUser 1).1 = some 400 ∧
        (deleteProductFromCart sampleDB sampleUser 1).2 = sampleDB)) :=
  ⟨by decide, deleteProduct_spec sampleDB sampleUser sampleCart 1 (by decide)⟩

/-- C9: when the user has no cart and the product is absent from the
products collection, addProductToCart first persists a new empty cart and
only then throws the 400 product-not-found error, so the failing call
still changes the persistent state. -/
theorem addProduct_notfound_persists (db : DB) (user : User) (pid : Nat) (q : Int)
    (hc : findCart db.carts user.email = none)
    (hp : findProduct db.products pid = none) :
    errorStatus (addProductToCart db user pid q).1 = some 400 ∧
    (addProductToCart db user pid q).2.carts = db.carts ++ [newCart user.email] ∧
    findCart (addProductToCart db user pid q).2.carts user.email
      = some (newCart user.email) := by
  unfold addProductToCart
  simp only [hc, hp]
  refine ⟨rfl, rfl, ?_⟩
  rw [findCart_append_of_none db.carts _ user.email hc, findCart_cons]
  simp [newCart]

/-- Concrete instantiation of addProduct_notfound_persists: product 99 is
absent and freshUser has no cart. -/
theorem addProduct_notfound_persists_witness :
    findCart noCartDB.carts freshUser.email = none ∧
    findProduct noCartDB.products 99 = none ∧
    (errorStatus (addProductToCart noCartDB freshUser 99 1).1 = some 400 ∧
     (addProductToCart noCartDB freshUser 99 1).2.carts
       = noCartDB.carts ++ [newCart freshUser.email] ∧
     findCart (addProductToCart noCartDB freshUser 99 1).2.carts freshUser.email
       = some (newCart freshUser.email)) :=
  ⟨by decide, by decide,
    addProduct_notfound_persists noCartDB freshUser 99 1 (by decide) (by decide)⟩

/-- C4: every cart operation preserves pairwise distinctness of the
product identifiers in the user's cart item list: if the identifiers are
distinct in the cart before the operation, they are distinct in the user's
cart in the resulting state (addProductToCart enforces this by scanning
for a duplicate before appending). -/
theorem cartOps_preserve_distinct (db : DB) (user : User) (pid : Nat) (q : Int)
    (hpre : ∀ c, findCart db.carts user.email = some c → (pids c.cartItems).Nodup) :
    (∀ c, findCart (addProductToCart db user pid q).2.carts user.email = some c →
        (pids c.cartItems).Nodup) ∧
    (∀ c, findCart (updateProductInCart db user pid q).2.carts user.email = some c →
        (pids c.cartItems).Nodup) ∧
    (∀ c, findCart (deleteProductFromCart db user pid).2.carts user.email = some c →
        (pids c.cartItems).Nodup) ∧
    (∀ c, findCart (checkout db user).2.1.carts user.email = some c →
        (pids c.cartItems).Nodup) :=
  ⟨add_preserves_nodup db user pid q hpre, update_preserves_nodup db user pid q hpre,
   delete_preserves_nodup db user pid hpre, checkout_preserves_nodup db user hpre⟩

/-- Concrete instantiation of cartOps_preserve_distinct on the sample
store, adding/updating/deleting product 2. -/
theorem cartOps_preserve_distinct_witness :
    (∀ c, findCart sampleDB.carts sampleUser.email = some c → (pids c.cartItems).Nodup) ∧
    ((∀ c, findCart (addProductToCart sampleDB sampleUser 2 4).2.carts sampleUser.email = some c →
        (pids c.cartItems).Nodup) ∧
     (∀ c, findCart (updateProductInCart sampleDB sampleUser 2 4).2.carts sampleUser.email = some c →
        (pids c.cartItems).Nodup) ∧
     (∀ c, findCart (deleteProductFromCart sampleDB sampleUser 2).2.carts sampleUser.email = some c →
        (pids c.cartItems).Nodup) ∧
     (∀ c, findCart (checkout sampleDB sampleUser).2.1.carts sampleUser.email = some c →
        (pids c.cartItems).Nodup)) := by
  have hpre : ∀ c, findCart sampleDB.carts sampleUser.email = some c →
      (pids c.cartItems).Nodup := by
    intro c hcw
    have h2 : some sampleCart = some c := hcw
    injection h2 with h2
    subst h2
    decide
  exact ⟨hpre, cartOps_preserve_distinct sampleDB sampleUser 2 4 hpre⟩

end QKart
